import Mathlib

/-!
Verification of the rewrite-rule layer of a JavaScript deobfuscator.

Each namespace below shallowly embeds one rule module (its `match` and
`transform` functions) from the repository's source.  JavaScript runtime
values are modelled by `JSValue`; AST nodes are modelled per module by
records carrying exactly the fields the module reads, with `nodeId` standing
for JavaScript object identity.  Staged Arborist edits (`arb.markNode`) are
modelled as explicit lists of `(target, replacement)` pairs, so a transform
is a pure function from its inputs to the list of edits it stages.
-/

/-- A JavaScript runtime value as far as the rules inspect one: integral
numbers, non-integral numbers (kept abstract except for their floor, which is
all `Math.floor` comparisons need), strings, booleans, `null` and
`undefined`. -/
inductive JSValue where
  | num (n : Int)
  | numNonInt (floor : Int)
  | str (s : String)
  | boolean (b : Bool)
  | null
  | undef
deriving DecidableEq, Repr

namespace NormalizeComputed

/-- Membership of a character in the identifier alphabet `[0-9a-zA-Z_$]`.
The source regex `BAD_IDENTIFIER_CHARS_REGEX` is the alternation of an
explicit character class with the complement class; every character of the
explicit class already lies outside the identifier alphabet, so the regex
matches a string exactly when the string has a character outside this
alphabet. -/
def isIdentifierChar (c : Char) : Bool :=
  c.isDigit || (c ≥ 'a' && c ≤ 'z') || (c ≥ 'A' && c ≤ 'Z') || c = '_' || c = '$'

/-- Semantics of `BAD_IDENTIFIER_CHARS_REGEX.test s`: true when some
character of `s` is not in `[0-9a-zA-Z_$]`. -/
def testBadIdentifierChars (s : String) : Bool :=
  s.toList.any (fun c => !(isIdentifierChar c))

/-- Semantics of `VALID_IDENTIFIER_BEGINNING.test s` for the regex
`/^[A-Za-z$_]/`: the first character is a letter, a dollar sign or an
underscore. -/
def testValidIdentifierBeginning (s : String) : Bool :=
  match s.toList with
  | [] => false
  | c :: _ => (c ≥ 'A' && c ≤ 'Z') || (c ≥ 'a' && c ≤ 'z') || c = '$' || c = '_'

/-- JavaScript `ToString`, as applied implicitly when a non-string value is
passed to `RegExp.prototype.test`. -/
def jsToString : JSValue → String
  | .num n => n.repr
  | .numNonInt f => f.repr ++ ".5"
  | .str s => s
  | .boolean b => if b then "true" else "false"
  | .null => "null"
  | .undef => "undefined"

/-- The key (or property) child of a candidate node: its `type`, its
`value` (for Literal keys) and its `name` (for Identifier keys). -/
structure KeyNode where
  type : String
  value : Option JSValue := none
  name : Option JSValue := none
deriving DecidableEq, Repr

/-- A candidate node for `normalizeComputed`: a MemberExpression (with its
`property`), a MethodDefinition or an object Property (with its `key`),
together with the `computed` flag and the parent's type (which the match
never consults). -/
structure MNode where
  nodeId : Nat
  type : String
  computed : Bool
  property : Option KeyNode := none
  key : Option KeyNode := none
  parentType : String := ""
deriving DecidableEq, Repr

/-- The per-kind node buckets (`typeMap`) the match iterates. -/
structure TypeMaps where
  memberExpressions : List MNode
  methodDefinitions : List MNode
  properties : List MNode
deriving Repr

/-- The guard shared by the three loops of `normalizeComputedMatch`,
applied to a key node `k`: `k.type === 'Literal' &&
VALID_IDENTIFIER_BEGINNING.test(k.value) &&
!BAD_IDENTIFIER_CHARS_REGEX.test(k.value)`. -/
def literalKeyGuard (k : Option KeyNode) : Bool :=
  match k with
  | none => false
  | some k =>
    k.type = "Literal" &&
    (match k.value with
     | none => false
     | some v => testValidIdentifierBeginning (jsToString v) &&
                 !(testBadIdentifierChars (jsToString v)))

/-- `normalizeComputedMatch` (src/src/modules/safe/normalizeComputed.js,
lines 12-54): computed MemberExpressions on a literal identifier-like
property, computed MethodDefinitions on such a key, and all Properties on
such a key, computed or not. -/
def normalizeComputedMatch (tm : TypeMaps) (candidateFilter : MNode → Bool) : List MNode :=
  (tm.memberExpressions.filter
    (fun n => n.computed && literalKeyGuard n.property && candidateFilter n)) ++
  (tm.methodDefinitions.filter
    (fun n => n.computed && literalKeyGuard n.key && candidateFilter n)) ++
  (tm.properties.filter
    (fun n => literalKeyGuard n.key && candidateFilter n))

/-- The value of the relevant key child of `n` (`property` for a
MemberExpression, `key` otherwise), defaulting like a JavaScript undefined
access. -/
def relevantKeyValue (n : MNode) : Option JSValue :=
  (if n.type = "MemberExpression" then n.property else n.key).bind (fun k => k.value)

/-- `normalizeComputedTransform` (lines 62-73): the staged replacement node
is a copy of `n` with `computed: false` and the relevant key child replaced
by a fresh Identifier named after the key's value. -/
def normalizeComputedTransform (n : MNode) : MNode :=
  let newKey : KeyNode := { type := "Identifier", name := relevantKeyValue n }
  if n.type = "MemberExpression" then
    { n with computed := false, property := some newKey }
  else
    { n with computed := false, key := some newKey }

end NormalizeComputed

namespace NormalizeComputed

/-- Claim C10: `normalizeComputed` rewrites object Property keys even when
the property is not computed: every Property (of an ObjectExpression) whose
key is a string Literal beginning with a letter, `$` or `_` and containing
only characters from `[A-Za-z0-9_$]` is matched, and its transform stages a
replacement with `computed = false` and the key replaced by an Identifier of
that name; MemberExpression and MethodDefinition nodes are matched only when
they are computed. -/
theorem normalizeComputed_rewrites_plain_property_keys
    (tm : TypeMaps) (candidateFilter : MNode → Bool) (n : MNode)
    (hwf : ∀ m ∈ tm.properties, m.type = "Property") :
    (n ∈ tm.properties → candidateFilter n = true → n.parentType = "ObjectExpression" →
      ∀ k s, n.key = some k → k.type = "Literal" → k.value = some (.str s) →
        testValidIdentifierBeginning s = true → testBadIdentifierChars s = false →
        n ∈ normalizeComputedMatch tm candidateFilter ∧
        (normalizeComputedTransform n).computed = false ∧
        (normalizeComputedTransform n).key =
          some { type := "Identifier", name := some (.str s) }) ∧
    (n ∈ normalizeComputedMatch tm candidateFilter →
      (n.type = "MemberExpression" ∨ n.type = "MethodDefinition") →
      n.computed = true) := by
  constructor
  · intro hmem hfil _hpar k s hkey hktype hkval hbeg hbad
    have hptype : n.type = "Property" := hwf n hmem
    have hguard : literalKeyGuard n.key = true := by
      rw [hkey]
      simp only [literalKeyGuard, hktype, hkval, jsToString]
      simp [hbeg, hbad]
    refine ⟨?_, ?_, ?_⟩
    · unfold normalizeComputedMatch
      refine List.mem_append.mpr (Or.inr ?_)
      exact List.mem_filter.mpr ⟨hmem, by simp [hguard, hfil]⟩
    · unfold normalizeComputedTransform
      split <;> rfl
    · unfold normalizeComputedTransform
      rw [if_neg (by rw [hptype]; decide)]
      simp only [relevantKeyValue]
      rw [if_neg (by rw [hptype]; decide), hkey]
      simp [hkval]
  · intro hmatch htype
    unfold normalizeComputedMatch at hmatch
    rcases List.mem_append.mp hmatch with h | h
    · rcases List.mem_append.mp h with h2 | h2
      · have h3 := (List.mem_filter.mp h2).2
        simp only [Bool.and_eq_true] at h3
        exact h3.1.1
      · have h3 := (List.mem_filter.mp h2).2
        simp only [Bool.and_eq_true] at h3
        exact h3.1.1
    · have := hwf n (List.mem_filter.mp h).1
      rcases htype with ht | ht <;> rw [ht] at this <;> simp at this

/-- The Property node of the object literal in the scenario
`x = {'valid': 1}`: a non-computed Property with the quoted key `'valid'`. -/
def validKeyProperty : MNode :=
  { nodeId := 7, type := "Property", computed := false,
    key := some { type := "Literal", value := some (.str "valid") },
    parentType := "ObjectExpression" }

/-- Witness for C10: on `{'valid': 1}` the quoted key `'valid'` is matched
although the property is not computed, and the staged replacement carries the
key Identifier `valid` with `computed = false`. -/
theorem normalizeComputed_rewrites_plain_property_keys_witness :
    validKeyProperty ∈ normalizeComputedMatch
      { memberExpressions := [], methodDefinitions := [], properties := [validKeyProperty] }
      (fun _ => true) ∧
    (normalizeComputedTransform validKeyProperty).computed = false ∧
    (normalizeComputedTransform validKeyProperty).key =
      some { type := "Identifier", name := some (.str "valid") } :=
  (normalizeComputed_rewrites_plain_property_keys
      { memberExpressions := [], methodDefinitions := [], properties := [validKeyProperty] }
      (fun _ => true) validKeyProperty (by decide)).1
    (by decide) rfl rfl
    { type := "Literal", value := some (.str "valid") } "valid"
    rfl rfl rfl (by decide) (by decide)

end NormalizeComputed

namespace Config

/-- `PROPERTIES_THAT_MODIFY_CONTENT` from the shared configuration module
(src/unnamed/part_008, lines 205-209). -/
def PROPERTIES_THAT_MODIFY_CONTENT : List String :=
  ["push", "forEach", "pop", "insert", "add", "set", "delete", "shift", "unshift", "splice",
   "sort", "reverse", "fill", "copyWithin"]

/-- `SKIP_IDENTIFIERS` from the shared configuration module (lines 211-214). -/
def SKIP_IDENTIFIERS : List String :=
  ["window", "this", "self", "document", "module", "$", "jQuery", "navigator", "typeof", "new",
   "Date", "Math", "Promise", "Error", "fetch", "XMLHttpRequest", "performance", "globalThis"]

/-- `SKIP_PROPERTIES` from the shared configuration module (lines 217-220). -/
def SKIP_PROPERTIES : List String :=
  ["test", "exec", "match", "length", "freeze", "call", "apply", "create", "getTime", "now",
   "getMilliseconds"] ++ PROPERTIES_THAT_MODIFY_CONTENT

/-- `Array.prototype.includes` applied to a possibly-undefined JavaScript
string (`includes(undefined)` is false for a list of strings). -/
def optContains (l : List String) : Option String → Bool
  | some s => l.contains s
  | none => false

end Config

namespace ResolveBuiltinCalls

open Config

/-- `SKIP_BUILTIN_FUNCTIONS` (src/unnamed/part_012, lines 10-12): the hard
deny-list of builtins that are never resolved. -/
def SKIP_BUILTIN_FUNCTIONS : List String :=
  ["Function", "eval", "Array", "Object", "fetch", "XMLHttpRequest", "Promise", "console",
   "performance", "$"]

/-- `AVAILABLE_SAFE_IMPLEMENTATIONS = Object.keys(safeImplementations)`:
the safe-implementations module (src/src/modules/utils/safeImplementations.js)
exports exactly `atob` and `btoa`. -/
def AVAILABLE_SAFE_IMPLEMENTATIONS : List String := ["atob", "btoa"]

/-- A node iterated by `resolveBuiltinCallsMatch`: a MemberExpression,
CallExpression or Identifier, carrying the callee fields the match reads.
`calleeName` models `n.callee.name` (defined only for Identifier callees),
`calleeObjectName` models `n.callee.object?.name`, and `calleePropertyName`
models `n.callee.property?.name || n.callee.property?.value`. -/
structure BNode where
  nodeId : Nat
  type : String
  calleeType : Option String := none
  calleeName : Option String := none
  calleeDeclNode : Bool := false
  calleeObjectType : Option String := none
  calleeObjectName : Option String := none
  calleeObjectDeclNode : Bool := false
  calleePropertyName : Option String := none
  argTypes : List String := []
deriving DecidableEq, Repr

/-- The short-circuit `n.callee?.object?.type || n.callee?.type` of the
match's ThisExpression check. -/
def calleeObjectOrCalleeType (n : BNode) : String :=
  match n.calleeObjectType with
  | some t => t
  | none => n.calleeType.getD ""

/-- The predicate applied by `resolveBuiltinCallsMatch`
(src/unnamed/part_012, lines 22-63) to each candidate node: skip nodes whose
callee (or callee object) is locally declared, `this` receivers and
`constructor` accesses; then match calls to a safe implementation, or calls
with only Literal arguments whose callee is an undeclared identifier off the
deny-list, or an undeclared member expression whose object is off the
deny-list and both skip-lists. -/
def resolveBuiltinCallsPred (candidateFilter : BNode → Bool) (n : BNode) : Bool :=
  candidateFilter n &&
  !(n.calleeDeclNode || n.calleeObjectDeclNode ||
    calleeObjectOrCalleeType n = "ThisExpression" ||
    n.calleePropertyName = some "constructor") &&
  ((n.type = "CallExpression" && optContains AVAILABLE_SAFE_IMPLEMENTATIONS n.calleeName) ||
   (n.type = "CallExpression" && n.argTypes.all (fun t => t = "Literal") &&
    ((n.calleeType = some "Identifier" && !n.calleeDeclNode &&
      !optContains SKIP_BUILTIN_FUNCTIONS n.calleeName) ||
     (n.calleeType = some "MemberExpression" && !n.calleeObjectDeclNode &&
      !optContains SKIP_BUILTIN_FUNCTIONS n.calleeObjectName &&
      !optContains SKIP_IDENTIFIERS n.calleeObjectName &&
      !optContains SKIP_PROPERTIES n.calleePropertyName))))

/-- The node buckets iterated by the match, in source iteration order
(MemberExpression, then CallExpression, then Identifier). -/
structure BTypeMaps where
  memberExpressions : List BNode
  callExpressions : List BNode
  identifiers : List BNode
deriving Repr

/-- `resolveBuiltinCallsMatch` (lines 22-63). -/
def resolveBuiltinCallsMatch (tm : BTypeMaps) (candidateFilter : BNode → Bool) : List BNode :=
  (tm.memberExpressions ++ tm.callExpressions ++ tm.identifiers).filter
    (resolveBuiltinCallsPred candidateFilter)

/-- The two resolution paths of `resolveBuiltinCallsTransform`. -/
inductive BuiltinResolutionPath where
  | safeImplementation
  | sandboxEval
deriving DecidableEq, Repr

/-- `resolveBuiltinCallsTransform` (lines 73-92), reduced to the decision the
claim is about: `safeImplementations[n.callee.name]` is defined exactly when
the callee name is an exported safe implementation, in which case the call is
computed by that implementation; otherwise `evalInVm(n.src, sharedSb)` runs
the fragment in the sandbox. -/
def resolveBuiltinCallsPath (n : BNode) : BuiltinResolutionPath :=
  if optContains AVAILABLE_SAFE_IMPLEMENTATIONS n.calleeName then .safeImplementation
  else .sandboxEval

end ResolveBuiltinCalls

namespace ResolveBuiltinCalls

open Config

/-- Claim C8: a matched call never has a deny-listed callee identifier name
nor a deny-listed callee member-expression object name; matched calls whose
callee name has a safe implementation (`atob`, `btoa`) resolve through it and
never reach the sandbox; every other matched call has only Literal arguments
before sandbox evaluation.  The hypothesis `hname` records the ESTree fact
that only an Identifier callee carries a `name` property. -/
theorem resolveBuiltinCalls_denylist_safety
    (tm : BTypeMaps) (candidateFilter : BNode → Bool) (n : BNode)
    (hname : n.calleeType ≠ some "Identifier" → n.calleeName = none)
    (hmem : n ∈ resolveBuiltinCallsMatch tm candidateFilter) :
    optContains SKIP_BUILTIN_FUNCTIONS n.calleeName = false ∧
    (n.calleeType = some "MemberExpression" →
      optContains SKIP_BUILTIN_FUNCTIONS n.calleeObjectName = false) ∧
    (optContains AVAILABLE_SAFE_IMPLEMENTATIONS n.calleeName = true →
      resolveBuiltinCallsPath n = .safeImplementation) ∧
    (resolveBuiltinCallsPath n = .sandboxEval →
      n.argTypes.all (fun t => t = "Literal") = true) := by
  have hpred := (List.mem_filter.mp hmem).2
  simp only [resolveBuiltinCallsPred, Bool.and_eq_true, Bool.or_eq_true,
    Bool.not_eq_true', decide_eq_true_eq] at hpred
  obtain ⟨⟨_hfil, _hskip⟩, hbranch⟩ := hpred
  refine ⟨?_, ?_, ?_, ?_⟩
  · rcases hbranch with ⟨_, hsafe⟩ | ⟨⟨_, _⟩, hcallee⟩
    · rcases hn : n.calleeName with _ | nm
      · rfl
      · rw [hn] at hsafe
        simp only [optContains, AVAILABLE_SAFE_IMPLEMENTATIONS] at hsafe
        simp at hsafe
        simp only [optContains, SKIP_BUILTIN_FUNCTIONS]
        rcases hsafe with h | h <;> rw [h] <;> decide
    · rcases hcallee with ⟨⟨_, _⟩, hno⟩ | ⟨⟨⟨⟨hmembr, _⟩, _⟩, _⟩, _⟩
      · exact hno
      · rw [hname (by rw [hmembr]; decide)]
        rfl
  · intro hmtype
    have hcn : n.calleeName = none := hname (by rw [hmtype]; decide)
    rcases hbranch with ⟨_, hsafe⟩ | ⟨⟨_, _⟩, hcallee⟩
    · rw [hcn] at hsafe
      simp [optContains] at hsafe
    · rcases hcallee with ⟨⟨hid, _⟩, _⟩ | ⟨⟨⟨⟨_, _⟩, hno⟩, _⟩, _⟩
      · rw [hmtype] at hid
        simp at hid
      · exact hno
  · intro hsafe
    simp [resolveBuiltinCallsPath, hsafe]
  · intro hpath
    rcases hbranch with ⟨_, hsafe⟩ | ⟨⟨_, hlit⟩, _⟩
    · simp [resolveBuiltinCallsPath, hsafe] at hpath
    · exact hlit

/-- The call `btoa(x)` with a non-Literal argument: matched through the
safe-implementation branch. -/
def btoaCall : BNode :=
  { nodeId := 3, type := "CallExpression", calleeType := some "Identifier",
    calleeName := some "btoa", argTypes := ["Identifier"] }

/-- Witness for C8: the matched call `btoa(x)` has no deny-listed callee and
resolves through the safe implementation, never the sandbox. -/
theorem resolveBuiltinCalls_denylist_safety_witness :
    optContains SKIP_BUILTIN_FUNCTIONS btoaCall.calleeName = false ∧
    (btoaCall.calleeType = some "MemberExpression" →
      optContains SKIP_BUILTIN_FUNCTIONS btoaCall.calleeObjectName = false) ∧
    (optContains AVAILABLE_SAFE_IMPLEMENTATIONS btoaCall.calleeName = true →
      resolveBuiltinCallsPath btoaCall = .safeImplementation) ∧
    (resolveBuiltinCallsPath btoaCall = .sandboxEval →
      btoaCall.argTypes.all (fun t => t = "Literal") = true) :=
  resolveBuiltinCalls_denylist_safety
    { memberExpressions := [], callExpressions := [btoaCall], identifiers := [] }
    (fun _ => true) btoaCall (by intro h; exact absurd rfl h) (by decide)

end ResolveBuiltinCalls

/-- A staged Arborist edit, as recorded by `arb.markNode`: a deletion
(`markNode(target)`) or a replacement (`markNode(target, replacement)`).
The target is identified by its `nodeId`; the replacement is the very node
value passed to `markNode`, so shared replacement values model JavaScript
object aliasing. -/
inductive Edit (α : Type) where
  | delete (targetId : Nat)
  | replace (targetId : Nat) (replacement : α)
deriving DecidableEq, Repr

namespace ProxyVariables

/-- An identifier node of the proxy-variables module: its object identity,
`type`, `name`, and the nodeId of the VariableDeclarator that declares it
(`declNode.parentNode`), when any. -/
structure PIdent where
  nodeId : Nat
  type : String
  name : String := ""
  declDeclaratorId : Option Nat := none
deriving DecidableEq, Repr

/-- One reference to the proxy variable, together with the parent fields the
modification check reads. -/
structure PRef where
  node : PIdent
  parentType : String := ""
  parentKey : String := ""
deriving DecidableEq, Repr

/-- Modelled from the spec: `areReferencesModified` is imported from a
utility module whose source is not in the repository snapshot; per the spec
a reference is modified when it is written, i.e. it is the left side of an
AssignmentExpression or the operand of an UpdateExpression ("neither `a`
nor `b` are subsequently written"; "no assignments or updates"). -/
def areReferencesModified (refs : List PRef) : Bool :=
  refs.any (fun r =>
    (r.parentType = "AssignmentExpression" && r.parentKey = "left") ||
    r.parentType = "UpdateExpression")

/-- A VariableDeclarator candidate: its identity, its `init` child (when
any), the references of its declared identifier, and the chain of enclosing
node types (which the module never consults). -/
structure PDeclarator where
  nodeId : Nat
  init : Option PIdent := none
  references : List PRef := []
  lineageTypes : List String := []
deriving DecidableEq, Repr

/-- A match object produced by `resolveProxyVariablesMatch`
(src/src/modules/safe/resolveProxyVariables.js, lines 41-66). -/
structure ProxyMatch where
  declaratorNode : PDeclarator
  targetIdentifier : PIdent
  references : List PRef
  shouldRemove : Bool
deriving DecidableEq, Repr

/-- `isProxyVariablePattern` (lines 13-25): the declarator has an
initializer, the initializer is an Identifier, and the candidate filter
accepts the declarator. -/
def isProxyVariablePattern (n : PDeclarator) (candidateFilter : PDeclarator → Bool) : Bool :=
  match n.init with
  | none => false
  | some i => i.type = "Identifier" && candidateFilter n

/-- `resolveProxyVariablesMatch` (lines 41-66): every declarator satisfying
the proxy pattern yields a match object carrying the declarator, the target
identifier (`n.init`), the references and the removal flag. -/
def resolveProxyVariablesMatch (nodes : List PDeclarator)
    (candidateFilter : PDeclarator → Bool) : List ProxyMatch :=
  nodes.filterMap (fun n =>
    match n.init with
    | none => none
    | some i =>
      if isProxyVariablePattern n candidateFilter then
        some { declaratorNode := n, targetIdentifier := i,
               references := n.references, shouldRemove := n.references.length = 0 }
      else none)

/-- `resolveProxyVariablesTransform` (lines 79-99): remove unreferenced
proxies; otherwise, unless the references are modified, mark every
reference for replacement with the target identifier node itself. -/
def resolveProxyVariablesTransform (m : ProxyMatch) : List (Edit PIdent) :=
  if m.shouldRemove then [.delete m.declaratorNode.nodeId]
  else if areReferencesModified m.references then []
  else m.references.map (fun r => .replace r.node.nodeId m.targetIdentifier)

/-- The default export (lines 122-130): match, then transform each match in
order, accumulating the staged edits. -/
def resolveProxyVariables (nodes : List PDeclarator)
    (candidateFilter : PDeclarator → Bool) : List (Edit PIdent) :=
  (resolveProxyVariablesMatch nodes candidateFilter).flatMap resolveProxyVariablesTransform

end ProxyVariables

namespace FixedAssignedValue

/-- A generic node with identity, as staged by the fixed-assigned-value
transform (the declaration's Literal init). -/
structure FNode where
  nodeId : Nat
  type : String
  value : JSValue := .undef
deriving DecidableEq, Repr

/-- The inputs `replaceIdentifierWithFixedAssignedValueTransform` reads off
a matched identifier `n`: `n.declNode.parentNode.init` (a Literal node) and
the nodeIds of `n.declNode.references`. -/
structure FIdentifier where
  nodeId : Nat
  declInit : FNode
  declReferences : List Nat
deriving DecidableEq, Repr

/-- `replaceIdentifierWithFixedAssignedValueTransform`
(src/src/modules/safe/replaceIdentifierWithFixedAssignedValue.js, lines
72-84): every reference is marked for replacement with the single
`valueNode` object extracted from the declaration. -/
def replaceIdentifierWithFixedAssignedValueTransform (n : FIdentifier) : List (Edit FNode) :=
  n.declReferences.map (fun r => .replace r n.declInit)

end FixedAssignedValue

namespace ProxyVariables

/-- The identifier `b` in initializer position of `const a = b;` (declared
by the second declarator, node 20). -/
def identBInit : PIdent :=
  { nodeId := 2, type := "Identifier", name := "b", declDeclaratorId := some 20 }

/-- The identifier `a` in initializer position of `const b = a;` (declared
by the first declarator, node 10). -/
def identAInit : PIdent :=
  { nodeId := 4, type := "Identifier", name := "a", declDeclaratorId := some 10 }

/-- The declarator `const a = b` of the circular pair `const a = b; const
b = a;`: the only reference to `a` sits in the other declarator's
initializer. -/
def circDeclA : PDeclarator :=
  { nodeId := 10, init := some identBInit,
    references := [{ node := identAInit, parentType := "VariableDeclarator", parentKey := "init" }] }

/-- The declarator `const b = a` of the circular pair. -/
def circDeclB : PDeclarator :=
  { nodeId := 20, init := some identAInit,
    references := [{ node := identBInit, parentType := "VariableDeclarator", parentKey := "init" }] }

/-- The identifier `d` initializing a declarator in a for-loop head. -/
def identDInit : PIdent := { nodeId := 5, type := "Identifier", name := "d" }

/-- `for (let c = d; ;) {}`: an unreferenced proxy declarator whose parent
statement sits in a For head. -/
def loopHeadDecl : PDeclarator :=
  { nodeId := 30, init := some identDInit, references := [],
    lineageTypes := ["VariableDeclaration", "ForStatement", "Program"] }

/-- Counterexample to claim C4: on the circular pair `const a = b; const
b = a;` the rule stages replacements for both declarators (the claim says it
never transforms a declarator of a circular proxy), and it stages the
deletion of an unreferenced declarator inside a For head (the claim says
declarators in For/While/DoWhile heads are skipped — the match never
consults the lineage). -/
theorem resolveProxyVariables_guards_counterexample :
    resolveProxyVariables [circDeclA, circDeclB] (fun _ => true) =
      [.replace 4 identBInit, .replace 2 identAInit] ∧
    resolveProxyVariables [loopHeadDecl] (fun _ => true) = [.delete 30] ∧
    loopHeadDecl.lineageTypes.contains "ForStatement" = true := by decide

/-- Claim C4 as amended: for every declarator whose initializer is a plain
Identifier (accepted by the filter), the rule matches it regardless of
circularity or of an enclosing loop head; the transform removes it when its
identifier has no references, does nothing when some reference of the
declared identifier is written, and otherwise replaces every reference with
the target identifier — only the proxy's own references are checked for
writes. -/
theorem resolveProxyVariables_amended
    (nodes : List PDeclarator) (candidateFilter : PDeclarator → Bool)
    (d : PDeclarator) (t : PIdent)
    (hmem : d ∈ nodes) (hinit : d.init = some t)
    (htype : t.type = "Identifier") (hfil : candidateFilter d = true) :
    ∃ m ∈ resolveProxyVariablesMatch nodes candidateFilter,
      m.declaratorNode = d ∧ m.targetIdentifier = t ∧
      resolveProxyVariablesTransform m =
        (if d.references.length = 0 then [Edit.delete d.nodeId]
         else if areReferencesModified d.references then []
         else d.references.map (fun r => Edit.replace r.node.nodeId t)) := by
  refine ⟨{ declaratorNode := d, targetIdentifier := t,
            references := d.references, shouldRemove := d.references.length = 0 },
          ?_, rfl, rfl, ?_⟩
  · unfold resolveProxyVariablesMatch
    refine List.mem_filterMap.mpr ⟨d, hmem, ?_⟩
    rw [hinit]
    simp [isProxyVariablePattern, hinit, htype, hfil]
  · unfold resolveProxyVariablesTransform
    by_cases h : d.references.length = 0
    · simp [h]
    · simp [h]

/-- Witness for the amended C4: the for-head declarator `for (let c = d;;)`
is matched and its deletion is staged. -/
theorem resolveProxyVariables_amended_witness :
    ∃ m ∈ resolveProxyVariablesMatch [loopHeadDecl] (fun _ => true),
      m.declaratorNode = loopHeadDecl ∧ m.targetIdentifier = identDInit ∧
      resolveProxyVariablesTransform m =
        (if loopHeadDecl.references.length = 0 then [Edit.delete loopHeadDecl.nodeId]
         else if areReferencesModified loopHeadDecl.references then []
         else loopHeadDecl.references.map (fun r => Edit.replace r.node.nodeId identDInit)) :=
  resolveProxyVariables_amended [loopHeadDecl] (fun _ => true) loopHeadDecl identDInit
    (List.mem_singleton.mpr rfl) rfl rfl rfl

end ProxyVariables

/-- The cloning discipline claim C3 asserts of a staged edit list: any two
replacements staged at distinct targets carry distinct node identities. -/
def distinctReplacementIdentities {α : Type} (nodeIdOf : α → Nat) (edits : List (Edit α)) : Prop :=
  ∀ t1 t2 r1 r2, Edit.replace t1 r1 ∈ edits → Edit.replace t2 r2 ∈ edits →
    t1 ≠ t2 → nodeIdOf r1 ≠ nodeIdOf r2

namespace FixedAssignedValue

/-- The Literal node `42` of a declaration `const x = 42;`. -/
def answerLiteral : FNode := { nodeId := 5, type := "Literal", value := .num 42 }

/-- The identifier `x` of `const x = 42; f(x); g(x);`: two read references
(nodes 2 and 3). -/
def xIdentifier : FIdentifier := { nodeId := 1, declInit := answerLiteral, declReferences := [2, 3] }

/-- The target identifier of a proxy `const alias = orig;`. -/
def proxyTarget : ProxyVariables.PIdent := { nodeId := 6, type := "Identifier", name := "orig" }

/-- A proxy match for `const alias = orig; f(alias); g(alias);`: two read
references (nodes 8 and 9). -/
def twoRefProxyMatch : ProxyVariables.ProxyMatch :=
  { declaratorNode :=
      { nodeId := 40, init := some proxyTarget,
        references := [{ node := { nodeId := 8, type := "Identifier", name := "alias" } },
                       { node := { nodeId := 9, type := "Identifier", name := "alias" } }] },
    targetIdentifier := proxyTarget,
    references := [{ node := { nodeId := 8, type := "Identifier", name := "alias" } },
                   { node := { nodeId := 9, type := "Identifier", name := "alias" } }],
    shouldRemove := false }

/-- Counterexample to claim C3: on `const x = 42; f(x); g(x);` the
fixed-assigned-value transform stages the same Literal node (id 5) at the
two distinct reference positions, and on `const alias = orig; f(alias);
g(alias);` the proxy transform stages the same target identifier node
(id 6) at both positions — aliases, not clones with distinct identities. -/
theorem staged_replacements_aliased_counterexample :
    ¬ distinctReplacementIdentities FNode.nodeId
        (replaceIdentifierWithFixedAssignedValueTransform xIdentifier) ∧
    ¬ distinctReplacementIdentities ProxyVariables.PIdent.nodeId
        (ProxyVariables.resolveProxyVariablesTransform twoRefProxyMatch) := by
  constructor
  · intro h
    exact h 2 3 answerLiteral answerLiteral (by decide) (by decide) (by decide) rfl
  · intro h
    exact h 8 9 proxyTarget proxyTarget (by decide) (by decide) (by decide) rfl

/-- Claim C3 as amended: when these rules stage the same source construct at
several positions they stage the same node object aliased at every position:
each replacement staged by `replaceIdentifierWithFixedAssignedValueTransform`
is the declaration's init node itself, and each replacement staged by the
non-removal branch of `resolveProxyVariablesTransform` is the match's target
identifier node itself; no clone is made. -/
theorem staged_replacements_alias_one_node
    (n : FIdentifier) (m : ProxyVariables.ProxyMatch) :
    (∀ e ∈ replaceIdentifierWithFixedAssignedValueTransform n,
      ∃ t, e = Edit.replace t n.declInit) ∧
    (m.shouldRemove = false →
      ∀ e ∈ ProxyVariables.resolveProxyVariablesTransform m,
        ∃ t, e = Edit.replace t m.targetIdentifier) := by
  constructor
  · intro e he
    obtain ⟨r, _, hr⟩ := List.mem_map.mp he
    exact ⟨r, hr.symm⟩
  · intro hrem e he
    unfold ProxyVariables.resolveProxyVariablesTransform at he
    rw [hrem] at he
    simp only [Bool.false_eq_true, if_false] at he
    by_cases hmod : ProxyVariables.areReferencesModified m.references = true
    · rw [if_pos hmod] at he
      exact absurd he (List.not_mem_nil e)
    · rw [if_neg hmod] at he
      obtain ⟨r, _, hr⟩ := List.mem_map.mp he
      exact ⟨r.node.nodeId, hr.symm⟩

/-- Witness for the amended C3: the first edit staged on
`const x = 42; f(x); g(x);` replaces reference 2 with the declaration's
init node itself. -/
theorem staged_replacements_alias_one_node_witness :
    (Edit.replace 2 answerLiteral ∈
      replaceIdentifierWithFixedAssignedValueTransform xIdentifier) ∧
    ∃ t, (Edit.replace 2 answerLiteral : Edit FNode) =
      Edit.replace t xIdentifier.declInit :=
  ⟨by decide,
   (staged_replacements_alias_one_node xIdentifier twoRefProxyMatch).1
     (Edit.replace 2 answerLiteral) (by decide)⟩

end FixedAssignedValue

namespace ArrayIndex

/-- `MIN_ARRAY_LENGTH` (src/unnamed/part_004, line 3). -/
def MIN_ARRAY_LENGTH : Nat := 20

/-- An AST node appearing as an array-literal element or as the Literal
property of a member expression. -/
structure ANode where
  nodeId : Nat
  type : String
  value : JSValue := .undef
deriving DecidableEq, Repr

/-- A member expression referencing the array variable (the `parentNode` of
a reference identifier), with the parent fields the guards read. -/
structure AMember where
  nodeId : Nat
  type : String
  parentType : String := ""
  parentKey : String := ""
  property : Option ANode := none
deriving DecidableEq, Repr

/-- A VariableDeclarator candidate: the type of `n.init`, the array elements
(`none` models an elision of a sparse array literal, handled by the falsy
element check of the transform), and the parent member expressions of the
references of `n.id` (the transform maps each reference to its parent). -/
structure ADeclarator where
  nodeId : Nat
  initType : Option String := none
  initElements : List (Option ANode) := []
  idReferencesParents : List AMember := []
deriving DecidableEq, Repr

/-- `isValidArrayIndex` (part_004, lines 16-31): a Literal property holding
a number that is a non-negative integer below the array length. -/
def isValidArrayIndex (m : AMember) (arrayLength : Nat) : Bool :=
  match m.property with
  | none => false
  | some p =>
    if p.type ≠ "Literal" then false
    else match p.value with
      | .num k => decide (0 ≤ k) && decide (k < (arrayLength : Int))
      | _ => false

/-- `isResolvableReference` (lines 45-58): a member expression that is not
an assignment target and whose property is a valid numeric index. -/
def isResolvableReference (m : AMember) (arrayLength : Nat) : Bool :=
  m.type = "MemberExpression" &&
  !(m.parentType = "AssignmentExpression" && m.parentKey = "left") &&
  isValidArrayIndex m arrayLength

/-- `resolveMemberExpressionReferencesToArrayIndexMatch` (lines 76-101):
declarators initialized with an ArrayExpression of more than
`MIN_ARRAY_LENGTH` elements whose identifier has at least one reference. -/
def resolveMemberExpressionReferencesToArrayIndexMatch
    (nodes : List ADeclarator) (candidateFilter : ADeclarator → Bool) : List ADeclarator :=
  nodes.filter (fun n =>
    n.initType = some "ArrayExpression" &&
    decide (MIN_ARRAY_LENGTH < n.initElements.length) &&
    decide (n.idReferencesParents.length ≠ 0) &&
    candidateFilter n)

/-- `resolveMemberExpressionReferencesToArrayIndexTransform` (lines
118-148): each resolvable reference whose indexed element exists is marked
for replacement with that element node itself. -/
def resolveMemberExpressionReferencesToArrayIndexTransform
    (n : ADeclarator) : List (Edit ANode) :=
  let arrayLength := n.initElements.length
  n.idReferencesParents.filterMap (fun m =>
    if isResolvableReference m arrayLength then
      match m.property with
      | some p =>
        match p.value with
        | .num k =>
          match n.initElements[k.toNat]? with
          | some (some el) => some (.replace m.nodeId el)
          | _ => none
        | _ => none
      | none => none
    else none)

/-- What claim C5 calls a clone: structurally equal content under a fresh
node identity. -/
def isCloneOf (r el : ANode) : Prop :=
  r.type = el.type ∧ r.value = el.value ∧ r.nodeId ≠ el.nodeId

/-- The 21 numeric elements `[10, 20, ..., 210]` of scenario S3, with node
identities 100..120. -/
def s3Elements : List (Option ANode) :=
  (List.range 21).map (fun i =>
    some { nodeId := 100 + i, type := "Literal", value := .num (10 * ((i : Int) + 1)) })

/-- The member expression `A[3]` of scenario S3 (`log(A[3])`). -/
def s3Ref : AMember :=
  { nodeId := 50, type := "MemberExpression", parentType := "CallExpression",
    parentKey := "arguments",
    property := some { nodeId := 60, type := "Literal", value := .num 3 } }

/-- The declarator `var A = [10,20,...,210];` of scenario S3. -/
def s3Declarator : ADeclarator :=
  { nodeId := 70, initType := some "ArrayExpression", initElements := s3Elements,
    idReferencesParents := [s3Ref] }

/-- The fourth element node (value `40`) of the S3 array literal. -/
def s3FourthElement : ANode := { nodeId := 103, type := "Literal", value := .num 40 }

end ArrayIndex

namespace ArrayIndex

/-- Counterexample to claim C5: on scenario S3 the staged replacement for
`A[3]` is the fourth element node of the array literal itself (node 103),
which is not a clone of that element — same node identity, not a distinct
one. -/
theorem arrayIndex_clone_counterexample :
    resolveMemberExpressionReferencesToArrayIndexTransform s3Declarator =
      [Edit.replace 50 s3FourthElement] ∧
    s3Declarator.initElements[3]? = some (some s3FourthElement) ∧
    ¬ isCloneOf s3FourthElement s3FourthElement := by
  refine ⟨by decide, by decide, ?_⟩
  intro h
  exact h.2.2 rfl

/-- Claim C5 as amended: the rule acts only on declarators with an
ArrayExpression initializer of more than 20 elements and at least one
reference; every referencing member expression with an in-bounds integer
Literal property that is not an assignment target is replaced with the
corresponding array element node itself (not a clone); in particular on the
21-entry S3 input, `A[3]` receives the fourth element. -/
theorem arrayIndex_amended
    (nodes : List ADeclarator) (candidateFilter : ADeclarator → Bool) (n : ADeclarator)
    (hmem : n ∈ resolveMemberExpressionReferencesToArrayIndexMatch nodes candidateFilter) :
    (n.initType = some "ArrayExpression" ∧
     MIN_ARRAY_LENGTH < n.initElements.length ∧
     n.idReferencesParents.length ≠ 0) ∧
    (∀ m ∈ n.idReferencesParents, ∀ p el, ∀ k : Int,
      m.type = "MemberExpression" →
      (m.parentType = "AssignmentExpression" && m.parentKey = "left") = false →
      m.property = some p → p.type = "Literal" → p.value = .num k →
      0 ≤ k → k < (n.initElements.length : Int) →
      n.initElements[k.toNat]? = some (some el) →
      Edit.replace m.nodeId el ∈
        resolveMemberExpressionReferencesToArrayIndexTransform n) := by
  constructor
  · have hpred := (List.mem_filter.mp hmem).2
    simp only [Bool.and_eq_true, decide_eq_true_eq] at hpred
    exact ⟨hpred.1.1.1, hpred.1.1.2, hpred.1.2⟩
  · intro m hm p el k htype hnotasgn hprop hptype hpval hk0 hklen hget
    unfold resolveMemberExpressionReferencesToArrayIndexTransform
    refine List.mem_filterMap.mpr ⟨m, hm, ?_⟩
    have hvalid : isValidArrayIndex m n.initElements.length = true := by
      unfold isValidArrayIndex
      rw [hprop]
      simp only [hptype, hpval, ne_eq]
      simp [hk0, hklen]
    have hres : isResolvableReference m n.initElements.length = true := by
      unfold isResolvableReference
      simp [htype, hnotasgn, hvalid]
    rw [hres]
    simp only [if_true, hprop, hpval, hget]

/-- Witness for the amended C5: on scenario S3 the declarator is matched and
`A[3]` receives the fourth element node (value 40). -/
theorem arrayIndex_amended_witness :
    (s3Declarator.initType = some "ArrayExpression" ∧
     MIN_ARRAY_LENGTH < s3Declarator.initElements.length ∧
     s3Declarator.idReferencesParents.length ≠ 0) ∧
    Edit.replace 50 s3FourthElement ∈
      resolveMemberExpressionReferencesToArrayIndexTransform s3Declarator := by
  have h := arrayIndex_amended [s3Declarator] (fun _ => true) s3Declarator (by decide)
  exact ⟨h.1, h.2 s3Ref (by decide)
    { nodeId := 60, type := "Literal", value := .num 3 } s3FourthElement 3
    rfl rfl rfl rfl rfl (by decide) (by decide) (by decide)⟩

end ArrayIndex

namespace RearrangeSwitches

/-- `MAX_REPETITION` (src/src/modules/safe/rearrangeSwitches.js, line 3). -/
def MAX_REPETITION : Nat := 50

/-- One statement of a switch-case consequent.  Modelled from the spec: the
`getDescendants` utility the transform uses to find assignments is absent
from the repository snapshot, so each statement carries the assignment
expressions of its subtree directly, as pairs of the assigned identifier's
declaration node and the assignment's `right.value` (`.undef` when the right
side is not a Literal). -/
structure CStmt where
  nodeId : Nat
  type : String := "ExpressionStatement"
  subtreeAssignments : List (Nat × JSValue) := []
deriving DecidableEq, Repr

/-- A switch case: its `test` value (`none` for the default case, `.undef`
for a non-Literal test expression) and its consequent statements. -/
structure SwitchCase where
  test : Option JSValue := none
  consequent : List CStmt := []
deriving DecidableEq, Repr

/-- A switch statement matched by `rearrangeSwitchesMatch` (lines 16-30):
its discriminant is an Identifier whose declaration is initialized with a
Literal of value `initValue`; `discDeclId` is the discriminant's declaration
node. -/
structure SwitchStmt where
  nodeId : Nat
  discDeclId : Nat
  initValue : JSValue
  cases : List SwitchCase
deriving DecidableEq, Repr

/-- The case lookup of the transform (lines 56-62): the first case whose
test value strictly equals the current value, or the first default case. -/
def findMatchingCase (cases : List SwitchCase) (currentVal : JSValue) : Option SwitchCase :=
  cases.find? (fun c => c.test = some currentVal || c.test = none)

/-- The assignments to the discriminant found among the descendants of the
case consequent (lines 72-83). -/
def assignmentsToNext (c : SwitchCase) (discDeclId : Nat) : List (Nat × JSValue) :=
  (c.consequent.flatMap (fun s => s.subtreeAssignments)).filter (fun a => a.1 = discDeclId)

/-- The `while` loop of `rearrangeSwitchesTransform` (lines 54-93), with the
remaining iteration budget `MAX_REPETITION - counter` made explicit as fuel.
Returns the collected statements and the number of case steps executed. -/
def traceFrom (cases : List SwitchCase) (discDeclId : Nat) :
    Nat → JSValue → List CStmt → (List CStmt × Nat)
  | 0, _, ordered => (ordered, 0)
  | fuel + 1, currentVal, ordered =>
    if currentVal = .undef then (ordered, 0)
    else
      match findMatchingCase cases currentVal with
      | none => (ordered, 0)
      | some currentCase =>
        let ordered2 := ordered ++
          currentCase.consequent.filter (fun s => s.type ≠ "BreakStatement")
        let nextVal :=
          match assignmentsToNext currentCase discDeclId with
          | [a] => a.2
          | _ => .undef
        let r := traceFrom cases discDeclId fuel nextVal ordered2
        (r.1, r.2 + 1)

/-- `rearrangeSwitchesTransform` (lines 47-103): run the trace from the
declaration's Literal value with budget `MAX_REPETITION`; stage the
replacement of the switch by the linearized block exactly when at least one
statement was collected. -/
def rearrangeSwitchesTransform (sw : SwitchStmt) : List (Edit (List CStmt)) :=
  let r := traceFrom sw.cases sw.discDeclId MAX_REPETITION sw.initValue []
  if r.1.length ≠ 0 then [.replace sw.nodeId r.1] else []

end RearrangeSwitches

namespace RearrangeSwitches

/-- The trace executes no more case steps than its fuel allows. -/
theorem traceFrom_steps_le (cases : List SwitchCase) (discDeclId : Nat) :
    ∀ fuel v ordered, (traceFrom cases discDeclId fuel v ordered).2 ≤ fuel := by
  intro fuel
  induction fuel with
  | zero => intro v ordered; rfl
  | succ f ih =>
    intro v ordered
    unfold traceFrom
    by_cases hv : v = JSValue.undef
    · simp [hv]
    · rw [if_neg hv]
      cases hfind : findMatchingCase cases v with
      | none => simp
      | some c =>
        simp only []
        have := ih (match assignmentsToNext c discDeclId with
          | [a] => a.2
          | _ => .undef)
          (ordered ++ c.consequent.filter (fun s => s.type ≠ "BreakStatement"))
        omega

/-- An undefined current value stops the trace with no further steps. -/
theorem traceFrom_undef (cases : List SwitchCase) (discDeclId : Nat) :
    ∀ fuel ordered, traceFrom cases discDeclId fuel .undef ordered = (ordered, 0) := by
  intro fuel ordered
  cases fuel with
  | zero => rfl
  | succ f => unfold traceFrom; simp

end RearrangeSwitches

namespace RearrangeSwitches

/-- Claim C6: the case-tracing loop of `rearrangeSwitchesTransform` executes
at most `MAX_REPETITION = 50` case steps per invocation; it stops with no
further steps when no case matches the current value, and after one more
step when the number of assignments to the discriminant in the matched case
is not exactly one; the switch is replaced by the linearized block exactly
when at least one statement was collected. -/
theorem rearrangeSwitches_bounded_trace (sw : SwitchStmt) :
    (traceFrom sw.cases sw.discDeclId MAX_REPETITION sw.initValue []).2 ≤ 50 ∧
    (∀ fuel v ordered, v ≠ .undef →
      findMatchingCase sw.cases v = none →
      traceFrom sw.cases sw.discDeclId (fuel + 1) v ordered = (ordered, 0)) ∧
    (∀ fuel v ordered c, v ≠ .undef →
      findMatchingCase sw.cases v = some c →
      (assignmentsToNext c sw.discDeclId).length ≠ 1 →
      traceFrom sw.cases sw.discDeclId (fuel + 1) v ordered =
        (ordered ++ c.consequent.filter (fun s => s.type ≠ "BreakStatement"), 1)) ∧
    (rearrangeSwitchesTransform sw = [] ↔
      (traceFrom sw.cases sw.discDeclId MAX_REPETITION sw.initValue []).1 = []) := by
  refine ⟨traceFrom_steps_le sw.cases sw.discDeclId MAX_REPETITION sw.initValue [], ?_, ?_, ?_⟩
  · intro fuel v ordered hv hfind
    unfold traceFrom
    rw [if_neg hv, hfind]
  · intro fuel v ordered c hv hfind hassign
    unfold traceFrom
    rw [if_neg hv, hfind]
    have hnext : (match assignmentsToNext c sw.discDeclId with
        | [a] => a.2
        | _ => .undef) = JSValue.undef := by
      rcases hl : assignmentsToNext c sw.discDeclId with _ | ⟨a, _ | ⟨b, t⟩⟩
      · rfl
      · rw [hl] at hassign; simp at hassign
      · rfl
    simp only [hnext, traceFrom_undef]
  · unfold rearrangeSwitchesTransform
    by_cases h : (traceFrom sw.cases sw.discDeclId MAX_REPETITION sw.initValue []).1.length = 0
    · simp [h, List.length_eq_zero.mp h]
    · simp only [h, ne_eq, not_false_eq_true, if_true]
      constructor
      · intro hcontra; exact absurd hcontra (by simp)
      · intro h1; exact absurd (by rw [h1]; rfl) h

/-- The switch of scenario S5, `var s = 0; switch(s){ case 0: a(); s = 1;
break; case 1: b(); break; }`: call statements, the assignment `s = 1`
inside case 0, and breaks. -/
def s5CallA : CStmt := { nodeId := 11 }

/-- The statement `s = 1` of case 0 (assigns Literal 1 to declaration 1). -/
def s5Assign : CStmt := { nodeId := 12, subtreeAssignments := [(1, .num 1)] }

/-- The break of case 0. -/
def s5Break1 : CStmt := { nodeId := 13, type := "BreakStatement" }

/-- The statement `b();` of case 1. -/
def s5CallB : CStmt := { nodeId := 21 }

/-- The break of case 1. -/
def s5Break2 : CStmt := { nodeId := 22, type := "BreakStatement" }

/-- The second case of the S5 switch. -/
def s5Case1 : SwitchCase := { test := some (.num 1), consequent := [s5CallB, s5Break2] }

/-- The S5 switch statement with discriminant declared as `var s = 0`. -/
def s5Switch : SwitchStmt :=
  { nodeId := 100, discDeclId := 1, initValue := .num 0,
    cases := [{ test := some (.num 0), consequent := [s5CallA, s5Assign, s5Break1] }, s5Case1] }

/-- Witness for C6 on the S5 switch: the bound holds, an unmatched value
(7) stops the trace immediately, case 1 (no assignments) contributes one
step, and the replacement condition holds. -/
theorem rearrangeSwitches_bounded_trace_witness :
    (traceFrom s5Switch.cases s5Switch.discDeclId MAX_REPETITION s5Switch.initValue []).2 ≤ 50 ∧
    traceFrom s5Switch.cases s5Switch.discDeclId (49 + 1) (.num 7) [] = ([], 0) ∧
    traceFrom s5Switch.cases s5Switch.discDeclId (49 + 1) (.num 1) [] =
      ([] ++ s5Case1.consequent.filter (fun s => s.type ≠ "BreakStatement"), 1) ∧
    (rearrangeSwitchesTransform s5Switch = [] ↔
      (traceFrom s5Switch.cases s5Switch.discDeclId MAX_REPETITION s5Switch.initValue []).1 = []) :=
  ⟨(rearrangeSwitches_bounded_trace s5Switch).1,
   (rearrangeSwitches_bounded_trace s5Switch).2.1 49 (.num 7) [] (by decide) (by decide),
   (rearrangeSwitches_bounded_trace s5Switch).2.2.1 49 (.num 1) [] s5Case1
     (by decide) (by decide) (by decide),
   (rearrangeSwitches_bounded_trace s5Switch).2.2.2⟩

end RearrangeSwitches

namespace ResolveLocalCalls

open Config

/-- `CACHE_LIMIT` (src/src/modules/unsafe/resolveLocalCalls.js, line 11). -/
def CACHE_LIMIT : Nat := 100

/-- A CallExpression node as read by `resolveLocalCallsMatch`: its position
in the source (start of `range`, giving source order), the callee fields the
guard reads, and the callee's name. -/
structure CallNode where
  nodeId : Nat
  start : Nat
  calleeName : String
  calleeDeclNode : Bool := false
  calleeObjectDeclNode : Bool := false
  calleeObjectIsLiteral : Bool := false
  calleePropertyName : Option String := none
deriving DecidableEq, Repr

/-- Modelled from the spec: `getCalleeName` is imported from a utility file
absent from the repository snapshot; the spec speaks of caching "by
callee-name", so the model reads the callee's (or callee object's) name
carried on the node. -/
def getCalleeName (n : CallNode) : String := n.calleeName

/-- The candidate guard of `resolveLocalCallsMatch` (lines 54-57): the
callee has a declaration, or its object has one and the accessed property is
not on the skip-list, or the callee's object is a Literal. -/
def localCallGuard (n : CallNode) : Bool :=
  n.calleeDeclNode ||
  (n.calleeObjectDeclNode && !(optContains SKIP_PROPERTIES n.calleePropertyName)) ||
  n.calleeObjectIsLiteral

/-- The `APPEARANCES` counts accumulated during the match phase: how many
matched candidates share a callee name. -/
def appearances (matched : List CallNode) (name : String) : Nat :=
  (matched.filter (fun m => getCalleeName m = name)).length

/-- `resolveLocalCallsMatch` (lines 45-67): filter the CallExpression bucket
(which is in source order), then `matches.sort(sortByApperanceFrequency)`
with the comparator `APPEARANCES.get(name b) - APPEARANCES.get(name a)`.
ECMAScript `Array.prototype.sort` is stable, and with this consistent
comparator its result is the stable sort by descending appearance
frequency, embedded here as a stable merge sort. -/
def resolveLocalCallsMatch (callExpressions : List CallNode)
    (candidateFilter : CallNode → Bool) : List CallNode :=
  let matched := callExpressions.filter (fun n => localCallGuard n && candidateFilter n)
  matched.mergeSort (fun a b =>
    appearances matched (getCalleeName b) ≤ appearances matched (getCalleeName a))

/-- What claim C1 calls source order: ascending start position. -/
def inSourceOrder (l : List CallNode) : Prop :=
  l.Pairwise (fun a b => a.start ≤ b.start)

/-- The call `f()` at source position 0 (callee declared locally). -/
def fCall : CallNode := { nodeId := 1, start := 0, calleeName := "f", calleeDeclNode := true }

/-- The first call `g()` at source position 10. -/
def gCall1 : CallNode := { nodeId := 2, start := 10, calleeName := "g", calleeDeclNode := true }

/-- The second call `g()` at source position 20. -/
def gCall2 : CallNode := { nodeId := 3, start := 20, calleeName := "g", calleeDeclNode := true }

/-- Counterexample to claim C1: on `f(); g(); g();` the snapshot is in
source order, but `resolveLocalCallsMatch` returns the two `g` calls before
the `f` call — descending appearance frequency, not source order. -/
theorem resolveLocalCallsMatch_order_counterexample :
    resolveLocalCallsMatch [fCall, gCall1, gCall2] (fun _ => true) = [gCall1, gCall2, fCall] ∧
    ¬ inSourceOrder (resolveLocalCallsMatch [fCall, gCall1, gCall2] (fun _ => true)) ∧
    inSourceOrder [fCall, gCall1, gCall2] := by
  have heq : resolveLocalCallsMatch [fCall, gCall1, gCall2] (fun _ => true) =
      [gCall1, gCall2, fCall] := by
    simp [resolveLocalCallsMatch, List.mergeSort, List.merge, localCallGuard, appearances,
      getCalleeName, fCall, gCall1, gCall2]
  refine ⟨heq, ?_, ?_⟩
  · rw [heq]
    unfold inSourceOrder
    simp [List.pairwise_cons, fCall, gCall1, gCall2]
  · unfold inSourceOrder
    simp [List.pairwise_cons, fCall, gCall1, gCall2]

/-- Claim C1 as amended for `resolveLocalCallsMatch`: the match stages no
edits (it is a pure function of the bucket) and returns a permutation of the
source-order filtered snapshot, sorted by descending appearance frequency of
the callee name (stably), not by source position. -/
theorem resolveLocalCallsMatch_sorted_by_frequency
    (callExpressions : List CallNode) (candidateFilter : CallNode → Bool) :
    (resolveLocalCallsMatch callExpressions candidateFilter).Perm
      (callExpressions.filter (fun n => localCallGuard n && candidateFilter n)) ∧
    (resolveLocalCallsMatch callExpressions candidateFilter).Pairwise
      (fun a b =>
        appearances (callExpressions.filter (fun n => localCallGuard n && candidateFilter n))
          (getCalleeName b) ≤
        appearances (callExpressions.filter (fun n => localCallGuard n && candidateFilter n))
          (getCalleeName a)) := by
  constructor
  · exact List.mergeSort_perm _ _
  · have h := @List.sorted_mergeSort CallNode
      (fun a b =>
        appearances (callExpressions.filter (fun n => localCallGuard n && candidateFilter n))
          (getCalleeName b) ≤
        appearances (callExpressions.filter (fun n => localCallGuard n && candidateFilter n))
          (getCalleeName a))
      (fun a b c hab hbc => by
        simp only [decide_eq_true_eq] at *
        omega)
      (fun a b => by
        simp only [Bool.or_eq_true, decide_eq_true_eq]
        omega)
      (callExpressions.filter (fun n => localCallGuard n && candidateFilter n))
    simpa using h

end ResolveLocalCalls

namespace ResolveLocalCalls

/-- A cache entry: the `BAD_VALUE` sentinel or a prepared context sandbox. -/
inductive CacheVal where
  | badValue
  | sandbox (ctxId : Nat)
deriving DecidableEq, Repr

/-- The numeric value of a list of decimal digits. -/
def digitsVal (l : List Char) : Nat :=
  l.foldl (fun n c => n * 10 + (c.toNat - Char.toNat (Char.ofNat 48))) 0

/-- JavaScript `ToNumber` on a string, restricted to the shapes arising
here: the empty string is `0`, an optionally negated decimal numeral has its
numeric value, anything else (in particular every `rlc-`-prefixed cache key)
is NaN, modelled as `none`. -/
def jsStringToNumber (s : String) : Option Int :=
  match s.toList with
  | [] => some 0
  | c :: rest =>
    if c = Char.ofNat 45 then
      if rest ≠ [] && rest.all (fun d => d.isDigit) then some (-(digitsVal rest : Int)) else none
    else if (c :: rest).all (fun d => d.isDigit) then some ((digitsVal (c :: rest) : Int))
    else none

/-- The relational comparison `Object.keys(cache) >= CACHE_LIMIT` on line
126: `Object.keys` returns an array, `ToPrimitive` turns it into the
comma-joined string of the keys, and a string-number comparison converts the
string with `ToNumber`; a NaN operand makes the comparison false. -/
def keysArrayGeLimit (keys : List String) (limit : Nat) : Bool :=
  match jsStringToNumber (String.intercalate "," keys) with
  | none => false
  | some v => decide ((limit : Int) ≤ v)

/-- The cache, an insertion-ordered mapping, plus a flag recording whether
`cache.flush()` was ever invoked. -/
structure CacheState where
  entries : List (String × CacheVal)
  flushed : Bool
deriving DecidableEq, Repr

/-- Property lookup on the cache object. -/
def cacheLookup (entries : List (String × CacheVal)) (k : String) : Option CacheVal :=
  (entries.find? (fun e => e.1 = k)).map (fun e => e.2)

/-- Property assignment on the cache object (insertion order preserved). -/
def cacheSet (entries : List (String × CacheVal)) (k : String) (v : CacheVal) :
    List (String × CacheVal) :=
  if (entries.find? (fun e => e.1 = k)).isSome then
    entries.map (fun e => if e.1 = k then (k, v) else e)
  else entries ++ [(k, v)]

/-- The cache key `rlc-${callee.name}-${declNode?.nodeId}` of line 108. -/
def localCallCacheName (calleeName : String) (declNodeId : Nat) : String :=
  "rlc-" ++ calleeName ++ "-" ++ Nat.repr declNodeId

/-- The cache-management block of `resolveLocalCallsTransform` (lines
107-130) for a candidate with a declared callee whose context sandbox builds
successfully: on a miss, first store `BAD_VALUE` under the key, then flush
if `Object.keys(cache) >= CACHE_LIMIT`, then store the prepared sandbox. -/
def cacheStep (st : CacheState) (calleeName : String) (declNodeId : Nat) : CacheState :=
  let cacheName := localCallCacheName calleeName declNodeId
  match cacheLookup st.entries cacheName with
  | some _ => st
  | none =>
    let e1 := cacheSet st.entries cacheName .badValue
    if keysArrayGeLimit (e1.map Prod.fst) CACHE_LIMIT then
      { entries := cacheSet [] cacheName (.sandbox declNodeId), flushed := true }
    else
      { entries := cacheSet e1 cacheName (.sandbox declNodeId), flushed := st.flushed }

/-- Run the cache-management block over a pass's candidates (callee name and
declaration node id pairs), starting from the empty per-script cache. -/
def runCacheSteps (cands : List (String × Nat)) : CacheState :=
  cands.foldl (fun st c => cacheStep st c.1 c.2) { entries := [], flushed := false }

/-- A pass over 101 distinct locally declared callees `f0 ... f100`. -/
def busyCandidates : List (String × Nat) :=
  (List.range 101).map (fun i => ("f" ++ Nat.repr i, i))

set_option maxRecDepth 100000

/-- Claim C2 evaluated at the failing input: after caching prepared
sandboxes for 101 distinct local callees the cache holds 101 entries —
beyond the 100-entry bound — and `flush` was never invoked, because
`Object.keys(cache) >= CACHE_LIMIT` compares the key array (a non-numeric
string after `ToPrimitive`) with a number and is therefore always false. -/
theorem resolveLocalCalls_cache_unbounded :
    (runCacheSteps busyCandidates).entries.length = 101 ∧
    CACHE_LIMIT < (runCacheSteps busyCandidates).entries.length ∧
    (runCacheSteps busyCandidates).flushed = false := by decide

end ResolveLocalCalls

namespace ReplaceEval

/-- A minimal AST node for the eval-replacement module.  `other` covers node
kinds the module only inspects through `type` (Program, IfStatement, ...).
NewExpression parents of a `callee`-positioned eval are not modelled: the
claim's special case is eval as a call callee. -/
inductive ENode where
  | literal (nodeId : Nat) (value : JSValue)
  | identifier (nodeId : Nat) (name : String)
  | exprStatement (nodeId : Nat) (expr : ENode)
  | blockStatement (nodeId : Nat) (body : List ENode)
  | callExpr (nodeId : Nat) (callee : ENode) (args : List ENode)
  | other (nodeId : Nat) (type : String)

/-- The `type` field of a node. -/
def typeOf : ENode → String
  | .literal .. => "Literal"
  | .identifier .. => "Identifier"
  | .exprStatement .. => "ExpressionStatement"
  | .blockStatement .. => "BlockStatement"
  | .callExpr .. => "CallExpression"
  | .other _ t => t

/-- The `nodeId` of a node. -/
def nodeIdOf : ENode → Nat
  | .literal i _ => i
  | .identifier i _ => i
  | .exprStatement i _ => i
  | .blockStatement i _ => i
  | .callExpr i _ _ => i
  | .other i _ => i

/-- `node.callee?.name` of a call expression. -/
def calleeNameOf : ENode → Option String
  | .callExpr _ c _ =>
    match c with
    | .identifier _ nm => some nm
    | _ => none
  | _ => none

/-- `node.arguments[0]?.type`. -/
def firstArgType : ENode → Option String
  | .callExpr _ _ (a :: _) => some (typeOf a)
  | _ => none

/-- The recurring idiom `if (x.type === 'ExpressionStatement') x = x.expression`
of this module. -/
def unwrapExprStatement : ENode → ENode
  | .exprStatement _ e => e
  | r => r

/-- `parseEvalArgument` (src/src/modules/safe/unwrapIIFEs.js multi-module
file, lines 162-182) applied to the body that the external parser produced
for the eval argument: several statements become a BlockStatement (built
fresh, node id 0); a single ExpressionStatement is unwrapped to its
expression; an empty body makes the JavaScript code throw on `body[0].type`,
which the transform's try/catch turns into a skip (`none`). -/
def parseEvalArgument : List ENode → Option ENode
  | [] => none
  | [b] => some (unwrapExprStatement b)
  | body => some (.blockStatement 0 body)

/-- `handleCalleeReplacement` (lines 194-205): unwrap an ExpressionStatement
replacement, then rebuild the parent call with eval's parsed content as the
callee (the object spread `{...evalNode.parentNode, callee}`). -/
def handleCalleeReplacement (parentCall : ENode) (rep : ENode) : ENode :=
  let rep2 := unwrapExprStatement rep
  match parentCall with
  | .callExpr i _ args => .callExpr i rep2 args
  | p => p

/-- The context of one eval call inside the tree: the call node, its
`parentKey`, and the three enclosing ancestors the transform can reach. -/
structure EvalCtx where
  evalNode : ENode
  parentKey : String
  parent : ENode
  grandParent : ENode
  greatGrandParent : ENode

/-- `replaceEvalCallsWithLiteralContentMatch` (lines 224-241): eval calls
whose first argument is a Literal. -/
def replaceEvalCallsWithLiteralContentMatch (nodes : List EvalCtx)
    (candidateFilter : EvalCtx → Bool) : List EvalCtx :=
  nodes.filter (fun c =>
    calleeNameOf c.evalNode = some "eval" &&
    (firstArgType c.evalNode).getD "" = "Literal" &&
    candidateFilter c)

/-- `replaceEvalCallsWithLiteralContentTransform` (lines 254-293), returning
the staged `(target nodeId, replacement)` pair, or `none` when the parse
failed (the catch swallows the exception and stages nothing).  `cached`
models the `replaceEval-` cache entry for this source fragment; on a miss
the parsed body of the literal is used. -/
def replaceEvalCallsWithLiteralContentTransform (ctx : EvalCtx) (cached : Option ENode)
    (parsedBody : List ENode) : Option (Nat × ENode) :=
  let parsed := match cached with
    | some v => some v
    | none => parseEvalArgument parsedBody
  match parsed with
  | none => none
  | some rep0 =>
    let step1 : ENode × ENode × ENode × ENode :=
      if ctx.parentKey = "callee" then
        (ctx.parent, ctx.grandParent, ctx.greatGrandParent,
         handleCalleeReplacement ctx.parent rep0)
      else (ctx.evalNode, ctx.parent, ctx.grandParent, rep0)
    let target := step1.1
    let tParent := step1.2.1
    let tGrand := step1.2.2.1
    let rep1 := step1.2.2.2
    let step2 : ENode × ENode :=
      if typeOf tParent = "ExpressionStatement" && typeOf rep1 = "BlockStatement" then
        (tParent, tGrand)
      else (target, tParent)
    let target2 := step2.1
    let tParent2 := step2.2
    let rep2 :=
      if typeOf tParent2 ≠ "ExpressionStatement" && typeOf rep1 = "ExpressionStatement" then
        unwrapExprStatement rep1
      else rep1
    some (nodeIdOf target2, rep2)

/-- Claim C7's description of the staged edit, written from the claim's
words: in the special case where the eval call is itself a callee,
`eval(Expr)(args)` becomes `Expr(args)` (the parent call with the parsed
content as callee); otherwise, when the parsed content is a BlockStatement
and the call sits in an ExpressionStatement, that enclosing
ExpressionStatement is replaced by the block; otherwise the call itself is
replaced with the parsed content, unwrapping an ExpressionStatement result
to its expression when the parent is not an ExpressionStatement. -/
def replaceEvalSpec (ctx : EvalCtx) (rep : ENode) : Nat × ENode :=
  if ctx.parentKey = "callee" then
    (nodeIdOf ctx.parent,
     match ctx.parent with
     | .callExpr i _ args => .callExpr i rep args
     | p => p)
  else if typeOf rep = "BlockStatement" ∧ typeOf ctx.parent = "ExpressionStatement" then
    (nodeIdOf ctx.parent, rep)
  else
    (nodeIdOf ctx.evalNode,
     if typeOf rep = "ExpressionStatement" ∧ typeOf ctx.parent ≠ "ExpressionStatement" then
       unwrapExprStatement rep
     else rep)

end ReplaceEval

namespace ReplaceEval

/-- Claim C7: every matched call `eval(s)` with a Literal argument whose
content parses is replaced as the claim describes: `eval(Expr)(args)` used
as a callee becomes `Expr(args)`; a BlockStatement result replaces the
enclosing ExpressionStatement; otherwise the call itself is replaced,
unwrapping an ExpressionStatement result when the parent is not an
ExpressionStatement.  `hcallee` records the ESTree fact that a node in
`callee` position sits in a call expression; `hrep` that the parser's
single-statement unwrapping yields a non-ExpressionStatement node. -/
theorem replaceEvalCalls_spec
    (nodes : List EvalCtx) (candidateFilter : EvalCtx → Bool) (ctx : EvalCtx)
    (parsedBody : List ENode) (rep : ENode)
    (_hmem : ctx ∈ replaceEvalCallsWithLiteralContentMatch nodes candidateFilter)
    (hparse : parseEvalArgument parsedBody = some rep)
    (hrep : typeOf rep ≠ "ExpressionStatement")
    (hcallee : ctx.parentKey = "callee" → ∃ i c args, ctx.parent = .callExpr i c args) :
    replaceEvalCallsWithLiteralContentTransform ctx none parsedBody =
      some (replaceEvalSpec ctx rep) := by
  have hunwrap : unwrapExprStatement rep = rep := by
    unfold unwrapExprStatement
    cases rep <;> first | rfl | (exact absurd rfl hrep)
  unfold replaceEvalCallsWithLiteralContentTransform replaceEvalSpec
  simp only [hparse]
  by_cases hk : ctx.parentKey = "callee"
  · obtain ⟨i, c, args, hp⟩ := hcallee hk
    simp only [hk, if_true, hp, handleCalleeReplacement, hunwrap, typeOf, nodeIdOf]
    simp [typeOf]
  · simp only [hk, if_false]
    by_cases hb : typeOf rep = "BlockStatement" ∧ typeOf ctx.parent = "ExpressionStatement"
    · simp only [if_pos hb, hb.1, hb.2]
      simp [hb.1, hb.2]
    · simp only [if_neg hb]
      have hcond : (typeOf ctx.parent = "ExpressionStatement" &&
          typeOf rep = "BlockStatement") = false := by
        rcases Decidable.not_and_iff_or_not.mp hb with h | h <;> simp [h]
      simp only [hcond]
      simp [hrep, hunwrap]

/-- The parsed content of the S7 scenario string, `console.log("hi")`. -/
def s7Parsed : ENode := .callExpr 11 (.identifier 12 "console.log") [.literal 13 (.str "hi")]

/-- The parser output for the S7 eval argument: one ExpressionStatement. -/
def s7Body : List ENode := [.exprStatement 10 s7Parsed]

/-- The S7 eval call with its string Literal argument. -/
def s7EvalCall : ENode :=
  .callExpr 1 (.identifier 2 "eval") [.literal 3 (.str "console.log(\"hi\")")]

/-- The S7 context: the eval call is the expression of an
ExpressionStatement at program top level. -/
def s7Ctx : EvalCtx :=
  { evalNode := s7EvalCall, parentKey := "expression",
    parent := .exprStatement 4 s7EvalCall,
    grandParent := .other 5 "Program", greatGrandParent := .other 6 "Program" }

/-- Witness for C7 on scenario S7: `eval('console.log("hi")');` stages the
replacement of the eval call by the parsed call `console.log("hi")`. -/
theorem replaceEvalCalls_spec_witness :
    replaceEvalCallsWithLiteralContentTransform s7Ctx none s7Body = some (1, s7Parsed) := by
  have h := replaceEvalCalls_spec [s7Ctx] (fun _ => true) s7Ctx s7Body s7Parsed
    (List.mem_filter.mpr ⟨List.mem_singleton.mpr rfl, by rfl⟩) rfl
    (by simp [typeOf, s7Parsed])
    (fun hk => by simp [s7Ctx] at hk)
  rw [h]
  rfl

end ReplaceEval

namespace ParseArgs

/-- A JavaScript value appearing in the `args` array handed to `parseArgs`;
only strings survive `preprocessShortOptionsWithEquals`, a non-string makes
`arg.startsWith` throw (caught by the outer catch). -/
inductive JSArg where
  | str (s : String)
  | nonString
deriving DecidableEq, Repr

/-- The `args` parameter of `parseArgs`: null (or undefined), a non-array
value, or an array of values. -/
inductive ArgsInput where
  | nullInput
  | notArray
  | array (args : List JSArg)

/-- The split at the first `=` of lines 142-144. -/
def splitAtFirstEq (a : String) : String × String :=
  let l := a.toList
  let pre := l.takeWhile (fun c => c ≠ '=')
  (String.mk pre, String.mk (l.drop (pre.length + 1)))

/-- `String.prototype.startsWith`. -/
def jsStartsWith (a pre : String) : Bool :=
  List.isPrefixOf pre.toList a.toList

/-- `preprocessShortOptionsWithEquals` (src/unnamed/part_017, lines
134-152): split `-o=value` short options into flag and value; a non-string
element throws a TypeError, modelled as `Except.error`. -/
def preprocessShortOptionsWithEquals : List JSArg → Except Unit (List String)
  | [] => .ok []
  | .nonString :: _ => .error ()
  | .str a :: rest =>
    match preprocessShortOptionsWithEquals rest with
    | .error e => .error e
    | .ok tail =>
      if jsStartsWith a "-" && !(jsStartsWith a "--") && a.toList.contains '=' then
        .ok ((splitAtFirstEq a).1 :: (splitAtFirstEq a).2 :: tail)
      else .ok (a :: tail)

/-- The leading decimal digits of a character list, when any. -/
def leadingDigitsVal (l : List Char) : Option Nat :=
  let ds := l.takeWhile Char.isDigit
  if ds = [] then none else some (ResolveLocalCalls.digitsVal ds)

/-- `parseInt(value, 10)`: skip leading whitespace, accept an optional
sign, read leading decimal digits; no digit yields NaN (`none`). -/
def jsParseInt (s : String) : Option Int :=
  let l := s.toList.dropWhile (fun c => c = ' ' || c = Char.ofNat 9 || c = Char.ofNat 10 || c = Char.ofNat 13)
  match l with
  | '-' :: rest => (leadingDigitsVal rest).map (fun n => -(n : Int))
  | '+' :: rest => (leadingDigitsVal rest).map (fun n => (n : Int))
  | rest => (leadingDigitsVal rest).map (fun n => (n : Int))

/-- The `-m, --max-iterations` coercion callback (lines 192-198): throw on
NaN or a non-positive value, otherwise return the parsed integer. -/
def parseMaxIterationsOption (value : String) : Except Unit Int :=
  match jsParseInt value with
  | none => .error ()
  | some p => if p ≤ 0 then .error () else .ok p

/-- The value of `program.opts().output`: undefined, `true` (bare flag) or
the supplied string. -/
inductive OutputOption where
  | absent
  | flagOnly
  | withValue (s : String)
deriving DecidableEq, Repr

/-- Modelled from the spec: Commander.js is the external argument-parsing
collaborator (CLI parsing is out of the spec's scope); its `program.parse`
is abstracted as an outcome — success with the parsed options and
positionals, help or version display, or a thrown CommanderError whose
message may mention max-iterations.  A `parsed` outcome's `maxIterations`
holds what the coercion callback returned. -/
inductive CommanderOutcome where
  | parsed (clean quiet verbose : Bool) (output : OutputOption)
           (maxIterations : Option Int) (positional : List String)
  | helpDisplayed
  | versionDisplayed
  | failed (messageMentionsMaxIterations : Bool)
deriving DecidableEq, Repr

/-- The `maxIterations` field of the returned options: `false` when the
flag was not supplied, `null` after an invalid value, or the number. -/
inductive MaxIterSetting where
  | notSet
  | invalid
  | set (n : Int)
deriving DecidableEq, Repr

/-- The options object `parseArgs` returns, with every field populated. -/
structure Options where
  inputFilename : String
  help : Bool
  clean : Bool
  quiet : Bool
  verbose : Bool
  outputToFile : Bool
  maxIterations : MaxIterSetting
  outputFilename : String
deriving DecidableEq, Repr

/-- `createDefaultOptions` (lines 279-290). -/
def createDefaultOptions (inputFilename : String) : Options :=
  { inputFilename := inputFilename, help := false, clean := false, quiet := false,
    verbose := false, outputToFile := false, maxIterations := .notSet,
    outputFilename := if inputFilename ≠ "" then inputFilename ++ "-deob.js" else "-deob.js" }

/-- The help check of line 209. -/
def helpRequested (processed : List String) : Bool :=
  processed.contains "-h" || processed.contains "--help"

/-- The help-flag filter of line 214. -/
def stripHelpFlags (processed : List String) : List String :=
  processed.filter (fun a => a ≠ "-h" && a ≠ "--help")

/-- The arguments handed to Commander (lines 212-215). -/
def commanderArgs (processed : List String) : List String :=
  if helpRequested processed then stripHelpFlags processed else processed

/-- The Commander-success branch of `parseArgs` (src/unnamed/part_017,
lines 234-264): copy the parsed flags onto the defaults, handle the output
option, adopt a validated max-iterations value, and throw (caught by the
outer catch, yielding the bare defaults) when no input filename was given
and help was not requested. -/
def applyParsedOptions (hasHelp clean quiet verbose : Bool) (output : OutputOption)
    (maxIter : Option Int) (positional : List String) : Options :=
  let inputFilename := positional.headD ""
  let opts0 := createDefaultOptions inputFilename
  let opts1 := { opts0 with
    help := hasHelp, clean := clean, quiet := quiet, verbose := verbose }
  let opts2 :=
    match output with
    | .absent => opts1
    | .flagOnly => { opts1 with outputToFile := true }
    | .withValue s =>
      if s.length > 0 then { opts1 with outputToFile := true, outputFilename := s }
      else { opts1 with outputToFile := true }
  let opts3 :=
    match maxIter with
    | none => opts2
    | some m => { opts2 with maxIterations := .set m }
  if !hasHelp && inputFilename.length = 0 then createDefaultOptions ""
  else opts3

/-- The inner-catch dispatch of `parseArgs` (lines 218-264): help or version
displayed returns the defaults with the help flag; other Commander errors
return the defaults, with `maxIterations = null` when the error message
mentions max-iterations; a successful parse proceeds to the options copy. -/
def handleCommanderOutcome (hasHelp : Bool) : CommanderOutcome → Options
  | .helpDisplayed => { createDefaultOptions "" with help := true }
  | .versionDisplayed => { createDefaultOptions "" with help := true }
  | .failed mentions =>
    if mentions then { createDefaultOptions "" with maxIterations := .invalid }
    else createDefaultOptions ""
  | .parsed clean quiet verbose output maxIter positional =>
    applyParsedOptions hasHelp clean quiet verbose output maxIter positional

/-- `parseArgs` (lines 168-270): null or non-array input and preprocessing
errors fall back to the defaults; otherwise Commander's outcome on the
help-stripped arguments is dispatched. -/
def parseArgs (commander : List String → CommanderOutcome) (input : ArgsInput) : Options :=
  match input with
  | .nullInput => createDefaultOptions ""
  | .notArray => createDefaultOptions ""
  | .array args =>
    match preprocessShortOptionsWithEquals args with
    | .error _ => createDefaultOptions ""
    | .ok processedArgs =>
      handleCommanderOutcome (helpRequested processedArgs)
        (commander (commanderArgs processedArgs))

/-- A value accepted by the max-iterations callback is positive. -/
theorem parseMaxIterationsOption_pos (raw : String) (m : Int)
    (h : parseMaxIterationsOption raw = .ok m) : 0 < m := by
  unfold parseMaxIterationsOption at h
  rcases hp : jsParseInt raw with _ | p <;> rw [hp] at h
  · simp at h
  · by_cases hle : p ≤ 0
    · simp [hle] at h
    · simp only [if_neg hle] at h
      cases h
      omega

/-- The `maxIterations` field after a successful Commander parse: the
defaults when the missing-filename throw fires, otherwise the callback's
value when the flag was supplied. -/
theorem applyParsedOptions_maxIterations (hasHelp clean quiet verbose : Bool)
    (output : OutputOption) (maxIter : Option Int) (positional : List String) :
    (applyParsedOptions hasHelp clean quiet verbose output maxIter positional).maxIterations =
      (if !hasHelp && (positional.headD "").length = 0 then .notSet
       else match maxIter with
            | none => MaxIterSetting.notSet
            | some m => .set m) := by
  unfold applyParsedOptions
  by_cases hgrd : (!hasHelp && decide ((positional.headD "").length = 0)) = true
  · simp only [hgrd, if_true]
    rfl
  · have hgrd2 : (!hasHelp && decide ((positional.headD "").length = 0)) = false :=
      Bool.eq_false_iff.mpr hgrd
    simp only [hgrd2, Bool.false_eq_true, if_false]
    cases maxIter with
    | none =>
      cases output with
      | absent => rfl
      | flagOnly => rfl
      | withValue s =>
        by_cases hs : s.length > 0 <;> simp [hs, createDefaultOptions]
    | some m =>
      cases output with
      | absent => rfl
      | flagOnly => rfl
      | withValue s =>
        by_cases hs : s.length > 0 <;> simp [hs, createDefaultOptions]

/-- Claim C9: `parseArgs` is total — every input (null, a non-array, a
throwing preprocess, any Commander outcome) yields a fully populated options
object and no exception escapes: null/non-array and preprocessing errors
fall back to the defaults; a Commander error mentioning max-iterations
yields the defaults with `maxIterations = null`; other errors yield the bare
defaults; help/version yield the defaults with the help flag; after a
successful parse `maxIterations` is `false` when the flag was absent and the
validated positive integer when supplied. -/
theorem parseArgs_total_fallbacks
    (commander : List String → CommanderOutcome)
    (hc : ∀ argv c q v o mi pos, commander argv = .parsed c q v o mi pos →
      ∀ m, mi = some m → ∃ raw, parseMaxIterationsOption raw = .ok m) :
    (parseArgs commander .nullInput = createDefaultOptions "" ∧
     parseArgs commander .notArray = createDefaultOptions "") ∧
    (∀ args, preprocessShortOptionsWithEquals args = .error () →
      parseArgs commander (.array args) = createDefaultOptions "") ∧
    (∀ args processed, preprocessShortOptionsWithEquals args = .ok processed →
      (commander (commanderArgs processed) = .failed true →
        parseArgs commander (.array args) =
          { createDefaultOptions "" with maxIterations := .invalid }) ∧
      (commander (commanderArgs processed) = .failed false →
        parseArgs commander (.array args) = createDefaultOptions "") ∧
      (commander (commanderArgs processed) = .helpDisplayed →
        parseArgs commander (.array args) = { createDefaultOptions "" with help := true }) ∧
      (∀ c q v o mi pos,
        commander (commanderArgs processed) = .parsed c q v o mi pos →
        (mi = none → (parseArgs commander (.array args)).maxIterations = .notSet) ∧
        (∀ m, mi = some m →
          (helpRequested processed = true ∨ pos.headD "" ≠ "") →
          (parseArgs commander (.array args)).maxIterations = .set m ∧ 0 < m))) := by
  have hrw : ∀ args processed, preprocessShortOptionsWithEquals args = .ok processed →
      parseArgs commander (.array args) =
        handleCommanderOutcome (helpRequested processed) (commander (commanderArgs processed)) := by
    intro args processed hok
    simp only [parseArgs]
    rw [hok]
  refine ⟨⟨rfl, rfl⟩, ?_, ?_⟩
  · intro args herr
    simp only [parseArgs]
    rw [herr]
  · intro args processed hok
    refine ⟨?_, ?_, ?_, ?_⟩
    · intro hf; rw [hrw args processed hok, hf]; rfl
    · intro hf; rw [hrw args processed hok, hf]; rfl
    · intro hf; rw [hrw args processed hok, hf]; rfl
    · intro c q v o mi pos hp
      constructor
      · intro hmi
        rw [hrw args processed hok, hp]
        subst hmi
        show (applyParsedOptions _ _ _ _ _ _ _).maxIterations = _
        rw [applyParsedOptions_maxIterations]
        split <;> rfl
      · intro m hmi hcond
        obtain ⟨raw, hraw⟩ := hc _ c q v o mi pos hp m hmi
        have hmpos := parseMaxIterationsOption_pos raw m hraw
        subst hmi
        rw [hrw args processed hok, hp]
        refine ⟨?_, hmpos⟩
        show (applyParsedOptions _ _ _ _ _ _ _).maxIterations = _
        rw [applyParsedOptions_maxIterations]
        have hg : (!(helpRequested processed) && decide ((pos.headD "").length = 0)) = false := by
          rcases hcond with h | h
          · rw [h]; rfl
          · have hlen : (pos.headD "").length ≠ 0 := by
              intro hl
              refine h ?_
              cases hd : pos.headD "" with
              | mk data =>
                rw [hd] at hl
                cases data with
                | nil => rfl
                | cons a l => simp [String.length] at hl
            cases hhelp : helpRequested processed with
            | true => rfl
            | false =>
              simp only [Bool.not_false, Bool.true_and]
              exact decide_eq_false hlen
        rw [hg]
        rfl


/-- A Commander behavior that rejects every invocation with an error whose
message mentions max-iterations (e.g. an invalid `-m` value). -/
def rejectingCommander : List String → CommanderOutcome := fun _ => .failed true

/-- Witness for C9: on `restringer -m=0` (an invalid max-iterations value)
`parseArgs` returns the default options with `maxIterations = null`. -/
theorem parseArgs_total_fallbacks_witness :
    parseArgs rejectingCommander (.array [JSArg.str "-m=0"]) =
      { createDefaultOptions "" with maxIterations := .invalid } :=
  ((parseArgs_total_fallbacks rejectingCommander
      (fun _ _ _ _ _ _ _ hp => nomatch hp)).2.2
    [JSArg.str "-m=0"] ["-m", "0"] rfl).1 rfl

end ParseArgs
